import Mathlib

/-!
Verification of the UnturnedInventoryDataBase server variants.

The repository holds six near-duplicate Express servers that fetch a Steam
inventory through an ordered list of transport strategies, validate and
normalize the result, and persist prices and snapshots in SQLite tables
(market_cache, saved_inventories, inventories/items).  Below we embed the
relevant route handlers and helpers as pure Lean functions and prove the
specified properties about them.  Database tables are modelled as lists of
rows; SQL INSERT OR REPLACE and ON CONFLICT DO UPDATE are modelled by the
corresponding delete-then-insert on the list; the ambient wall clock is an
explicit argument.
-/

namespace UnturnedInv

/-! ## market_cache store (server.js, part_004 second variant)

Table schema: item_name TEXT PRIMARY KEY, price REAL, timestamp INTEGER.
POST /api/price/:itemName runs
INSERT OR REPLACE INTO market_cache (item_name, price, timestamp) VALUES (?, ?, ?)
and GET /api/price/:itemName runs
SELECT price, timestamp FROM market_cache WHERE item_name = ?. -/

/-- One row of the market_cache table.  The REAL price column is modelled
by an integer: the claims under study are about the store structure, never
about arithmetic on the price. -/
structure PriceRow where
  item_name : String
  price : Int
  timestamp : Nat
  deriving Repr, DecidableEq

/-- The market_cache table as a list of rows (item_name is the primary key). -/
abbrev PriceTable := List PriceRow

/-- INSERT OR REPLACE semantics of POST /api/price/:itemName in the second
variant inside part_004: the row with a conflicting primary key is removed
and the fresh row (price plus current timestamp) is inserted. -/
def putPrice (t : PriceTable) (k : String) (p : Int) (ts : Nat) : PriceTable :=
  (t.filter (fun r => r.item_name ≠ k)) ++ [⟨k, p, ts⟩]

/-- SELECT price, timestamp FROM market_cache WHERE item_name = ?. -/
def getPrice (t : PriceTable) (k : String) : Option (Int × Nat) :=
  (t.find? (fun r => r.item_name = k)).map (fun r => (r.price, r.timestamp))

/-- Caller-visible outcome of GET /api/price/:item in part_000 (and of the
equivalent route of part_004): cached true with the row, or cached false. -/
inductive PriceResp where
  | hit (price : Int) (last_updated : Nat)
  | miss : PriceResp
  deriving Repr, DecidableEq

/-- GET /api/price/:item from part_000.  The now argument is the wall clock
at request time; the source handler never reads the clock, so the body
ignores it and the response depends only on the stored row. -/
def priceGetRoute (now : Nat) (t : PriceTable) (item : String) : PriceResp :=
  match getPrice t item with
  | some (p, ts) => PriceResp.hit p ts
  | none => PriceResp.miss

/-! ## clear-cache route (server.js, part_003, part_004)

POST /api/clear-cache extracts a bearer token, compares it with
SECRET_TOKEN, answers 403 Unauthorized on mismatch, and otherwise runs
DELETE FROM market_cache.  part_003 also owns a saved_inventories table,
which the route never touches. -/

/-- Default secret from the source: process.env.SECRET_TOKEN falls back to
this literal in every variant. -/
def SECRET_TOKEN : String := "supersecretkey123"

/-- One row of the saved_inventories table (part_003).  The
inventory_json TEXT column stores the JSON serialization of the posted
array; we model it by the list itself, each element standing for the JSON
text of one item, so that JSON round-tripping is the identity. -/
structure InvRow where
  steam_id : String
  item_count : Nat
  inventory_json : List String
  last_updated : Nat
  deriving Repr, DecidableEq

/-- The saved_inventories table. -/
abbrev InvTable := List InvRow

/-- The whole persistent state of the part_003 variant: the price cache and
the saved snapshots. -/
structure Db where
  market : PriceTable
  saved : InvTable
  deriving Repr, DecidableEq

/-- Caller-visible outcome of POST /api/clear-cache. -/
inductive ClearResp where
  | unauthorized : ClearResp
  | cleared : ClearResp
  deriving Repr, DecidableEq

/-- POST /api/clear-cache.  The token argument is the already extracted
bearer credential, none when the Authorization header is absent.  Only on
an exact match with SECRET_TOKEN does the handler run
DELETE FROM market_cache; saved_inventories is never named in the route. -/
def clearCache (token : Option String) (db : Db) : Db × ClearResp :=
  if token = some SECRET_TOKEN then
    ({ db with market := [] }, ClearResp.cleared)
  else
    (db, ClearResp.unauthorized)

/-! ## save-inventory route (part_003)

POST /api/save-inventory reads steamId and inventory from the body,
rejects a falsy steamId or a non-array inventory with 400, and otherwise
upserts (steam_id, item_count, inventory_json, last_updated) with
item_count = inventory.length, answering success with that count. -/

/-- Caller-visible outcome of POST /api/save-inventory. -/
inductive SaveResp where
  | invalidData : SaveResp
  | success (items : Nat) : SaveResp
  deriving Repr, DecidableEq

/-- POST /api/save-inventory.  A non-array body is already excluded by the
argument type; the remaining guard from the source is the falsy check on
steamId, which for a string means the empty string.  The ON CONFLICT
DO UPDATE upsert is modelled by delete-then-insert on the primary key. -/
def saveInventory (t : InvTable) (steamId : String) (inventory : List String)
    (now : Nat) : InvTable × SaveResp :=
  if steamId = "" then
    (t, SaveResp.invalidData)
  else
    ((t.filter (fun r => r.steam_id ≠ steamId)) ++
      [⟨steamId, inventory.length, inventory, now⟩],
     SaveResp.success inventory.length)

/-- The invariant of the saved_inventories table: the item_count column of
every row equals the length of the stored inventory array. -/
def invCountInvariant (t : InvTable) : Prop :=
  ∀ r ∈ t, r.item_count = r.inventory_json.length

instance (t : InvTable) : Decidable (invCountInvariant t) := by
  unfold invCountInvariant
  infer_instance

/-! ## SteamID64 validation

Five of the six variants guard their inventory routes with the regular
expression matching exactly seventeen decimal digits. -/

/-- The test of the 17-digit regular expression on the steamId path
parameter. -/
def validSteamId (s : String) : Bool :=
  s.length = 17 && s.toList.all (fun c => c.isDigit)

/-! ## part_000 inventory route: ordered strategy loop

GET /api/inventory/:steamId of part_000 validates the id, then walks the
method list direct, allorigins, corsproxy, scmm in order.  Each method
either throws (bad status, empty body, the literal null body, or a network
error) or returns the parsed JSON; a parsed value passes the structure
check when it is truthy and has a truthy assets or items field or is an
array.  The first structurally valid document is returned at once; a
method that throws or fails the check is abandoned and the next one is
tried; if all fail the route answers 500 with a fixed message. -/

/-- What the structure check of part_000 can observe about a parsed JSON
value: its own truthiness and the truthiness of data.assets, data.items
and Array.isArray(data). -/
structure RawDoc where
  truthy : Bool
  hasAssets : Bool
  hasItems : Bool
  isArray : Bool
  deriving Repr, DecidableEq

/-- The validation guard of part_000:
data and (data.assets or data.items or Array.isArray(data)). -/
def validStructure (d : RawDoc) : Bool :=
  d.truthy && (d.hasAssets || d.hasItems || d.isArray)

/-- Outcome of one fetchInventory call in part_000: either the call threw
an Error (non-ok status, empty or null body, network failure) or it
returned a parsed document. -/
inductive Attempt where
  | throws (msg : String)
  | parsed (d : RawDoc)
  deriving Repr, DecidableEq

/-- An attempt that does not end the loop: it threw, or its document fails
the structure check. -/
def isSoftFail : Attempt → Bool
  | Attempt.throws _ => true
  | Attempt.parsed d => !validStructure d

/-- The failure messages carried by a list of attempts, in order; these are
the constituent reasons the handler logs to the console. -/
def attemptMsgs : List Attempt → List String
  | [] => []
  | Attempt.throws m :: rest => m :: attemptMsgs rest
  | Attempt.parsed _ :: rest => attemptMsgs rest

/-- The method loop of part_000 over the per-method outcomes: the first
document passing validStructure is returned together with the number of
methods attempted; when no method yields one, none is returned and every
method was attempted. -/
def runMethods : List Attempt → Option RawDoc × Nat
  | [] => (none, 0)
  | Attempt.throws _ :: rest =>
      let t := runMethods rest
      (t.1, t.2 + 1)
  | Attempt.parsed d :: rest =>
      if validStructure d then (some d, 1)
      else
        let t := runMethods rest
        (t.1, t.2 + 1)

/-- Caller-visible outcome of GET /api/inventory/:steamId in part_000. -/
inductive InvResp where
  | invalidSteamId : InvResp
  | doc (d : RawDoc) : InvResp
  | allFailed (errorMessage : String) : InvResp
  deriving Repr, DecidableEq

/-- The fixed exhaustion message of part_000. -/
def allFailedMsg : String := "Failed to fetch inventory from all sources."

/-- GET /api/inventory/:steamId of part_000, paired with the number of
outbound fetch calls it issues.  The id is checked against the 17-digit
format before any fetch; the network is modelled by the list of per-method
outcomes. -/
def inventoryRoute_part000 (steamId : String) (net : List Attempt) :
    InvResp × Nat :=
  if !validSteamId steamId then (InvResp.invalidSteamId, 0)
  else
    match runMethods net with
    | (some d, n) => (InvResp.doc d, n)
    | (none, n) => (InvResp.allFailed allFailedMsg, n)

/-- True when the first character list is an initial segment of the
second. -/
def segStartsAt : List Char → List Char → Bool
  | [], _ => true
  | _ :: _, [] => false
  | p :: ps, c :: cs => (p == c) && segStartsAt ps cs

/-- True when the first character list occurs contiguously inside the
second. -/
def hasSeg (pat : List Char) : List Char → Bool
  | [] => pat.isEmpty
  | c :: rest => segStartsAt pat (c :: rest) || hasSeg pat rest

/-- Substring test used to state that a response body does not carry a
given failure reason. -/
def strContains (s pat : String) : Bool :=
  hasSeg pat.toList s.toList

/-! ## part_002: normalizer data model

POST /api/fetch of part_002 joins data.assets against data.descriptions by
the composite key classid:instanceid (a falsy instanceid is rendered as 0
by the template literal) and inserts one items row per asset. -/

/-- One element of data.assets.  A missing JSON field is none; the source
applies JS truthiness to instanceid and amount, so the empty string and 0
count as absent there. -/
structure Asset where
  assetid : String
  classid : String
  instanceid : Option String
  amount : Option Nat
  deriving Repr, DecidableEq

/-- One element of data.descriptions. -/
structure Description where
  classid : String
  instanceid : Option String
  market_hash_name : Option String
  name : Option String
  type : Option String
  icon_url : Option String
  deriving Repr, DecidableEq

/-- The parsed JSON document of part_002 after the defaults
data.assets or [] and data.descriptions or [] are applied. -/
structure SteamDoc where
  assets : List Asset
  descriptions : List Description
  deriving Repr, DecidableEq

/-- JS truthiness on an optional string: undefined and the empty string
are falsy. -/
def truthyStr : Option String → Option String
  | none => none
  | some s => if s = "" then none else some s

/-- The join key of a description: the template literal
classid colon (instanceid or 0). -/
def descKey (d : Description) : String :=
  d.classid ++ ":" ++ ((truthyStr d.instanceid).getD "0")

/-- The join key of an asset, built by the same template literal. -/
def assetKey (a : Asset) : String :=
  a.classid ++ ":" ++ ((truthyStr a.instanceid).getD "0")

/-- The descMap object built by descriptions.forEach: later descriptions
with the same key overwrite earlier ones. -/
def descMap (descs : List Description) : String → Option Description :=
  descs.foldl (fun m d => fun k => if k = descKey d then some d else m k)
    (fun _ => none)

/-- The icon URL prefix prepended by the insert loop. -/
def iconUrlBase : String :=
  "https://community.cloudflare.steamstatic.com/economy/image/"

/-- One row of the items table as the insert loop produces it. -/
structure NormalizedItem where
  inventory_id : Nat
  assetid : String
  classid : String
  instanceid : String
  market_hash_name : Option String
  name : Option String
  type : Option String
  icon_url : Option String
  amount : Nat
  deriving Repr, DecidableEq

/-- The field computations of the insert loop body for one asset and its
(possibly missing) description:
name column of the insert = desc present, desc.market_hash_name or
desc.name, else null; the plain name column = desc.name or null; type =
desc.type or null; icon_url = prefix plus desc.icon_url when truthy;
amount = a.amount or 1; instanceid column = a.instanceid or the empty
string. -/
def mkItem (invId : Nat) (a : Asset) (desc : Option Description) :
    NormalizedItem :=
  { inventory_id := invId
    assetid := a.assetid
    classid := a.classid
    instanceid := (truthyStr a.instanceid).getD ""
    market_hash_name :=
      match desc with
      | none => none
      | some d =>
          match truthyStr d.market_hash_name with
          | some m => some m
          | none => d.name
    name :=
      match desc with
      | none => none
      | some d => d.name
    type :=
      match desc with
      | none => none
      | some d => truthyStr d.type
    icon_url :=
      match desc with
      | none => none
      | some d =>
          match truthyStr d.icon_url with
          | some i => some (iconUrlBase ++ i)
          | none => none
    amount :=
      match a.amount with
      | none => 1
      | some 0 => 1
      | some n => n }

/-- The insert loop of POST /api/fetch: one items row per asset, in asset
order, each joined through descMap. -/
def normalize (invId : Nat) (doc : SteamDoc) : List NormalizedItem :=
  let m := descMap doc.descriptions
  doc.assets.map (fun a => mkItem invId a (m (assetKey a)))

/-! ## part_002: fetchWithRetries

fetchWithRetries(url, opts, attempts = 3, timeoutMs) loops i from 0 to
attempts - 1.  An ok response returns at once with the parsed JSON (or
null json plus the raw text when parsing fails).  A non-ok retryable
status (429, 500, 502, 503, 504) with budget left sleeps 500 * 2 ^ i ms
and continues.  A non-ok non-retryable status throws, but the throw sits
inside the try of the same loop body, so the catch clause receives it:
with budget left it also sleeps 500 * 2 ^ i ms and continues, and only on
the last attempt does the error propagate (PROXY_URLS defaults to the
empty list, so the proxy fallback loop is skipped). -/

/-- Outcome of one underlying fetch call: an abort by the timeout, another
network error, or an HTTP response carrying its status, the result of
JSON.parse on its body (none when parsing fails), and the raw body
text. -/
inductive NetResult where
  | timeout : NetResult
  | netError (msg : String)
  | response (status : Nat) (json : Option SteamDoc) (raw : String)
  deriving Repr, DecidableEq

/-- The retryable status list of the source. -/
def retryableStatuses : List Nat := [429, 500, 502, 503, 504]

/-- resp.ok of the fetch API: a status in the 2xx range. -/
def statusOk (s : Nat) : Bool := 200 ≤ s && s < 300

/-- The error message of the HTTP error object, without the status
text. -/
def httpErrMsg (status : Nat) : String := "HTTP " ++ toString status

/-- Observable trace of one fetchWithRetries call: the returned value or
thrown error, how many fetch calls were issued, and the backoff delays
slept in order. -/
structure FetchTrace where
  result : Except String (Option SteamDoc × String)
  attemptsMade : Nat
  delays : List Nat
  deriving Repr

/-- The loop of fetchWithRetries from iteration i on, driven by the list
of per-attempt network outcomes (attempt i reads entry i; a missing entry
is a timeout).  The second numeric argument counts the loop iterations
still available including the current one, so the source guard
i < attempts - 1 reads here as 0 < remaining after peeling one off. -/
def fetchGo (net : List NetResult) : Nat → Nat → FetchTrace
  | _, 0 =>
      { result := Except.error "attempts exhausted", attemptsMade := 0,
        delays := [] }
  | i, remaining + 1 =>
      match net.getD i NetResult.timeout with
      | NetResult.response status json raw =>
          if statusOk status then
            { result := Except.ok (json, raw), attemptsMade := 1, delays := [] }
          else if retryableStatuses.contains status && 0 < remaining then
            let t := fetchGo net (i + 1) remaining
            { t with attemptsMade := t.attemptsMade + 1,
                     delays := (500 * 2 ^ i) :: t.delays }
          else if 0 < remaining then
            let t := fetchGo net (i + 1) remaining
            { t with attemptsMade := t.attemptsMade + 1,
                     delays := (500 * 2 ^ i) :: t.delays }
          else
            { result := Except.error (httpErrMsg status), attemptsMade := 1,
              delays := [] }
      | NetResult.timeout =>
          if 0 < remaining then
            let t := fetchGo net (i + 1) remaining
            { t with attemptsMade := t.attemptsMade + 1,
                     delays := (500 * 2 ^ i) :: t.delays }
          else
            { result := Except.error "The operation was aborted",
              attemptsMade := 1, delays := [] }
      | NetResult.netError msg =>
          if 0 < remaining then
            let t := fetchGo net (i + 1) remaining
            { t with attemptsMade := t.attemptsMade + 1,
                     delays := (500 * 2 ^ i) :: t.delays }
          else
            { result := Except.error msg, attemptsMade := 1, delays := [] }

/-- fetchWithRetries with its attempt budget; every caller in part_002
passes 3. -/
def fetchWithRetries (net : List NetResult) (attempts : Nat) : FetchTrace :=
  fetchGo net 0 attempts

/-- Caller-visible outcome of GET /api/inventory/:steamId in part_002. -/
inductive QuickResp where
  | nonJson (snippet : String)
  | doc (d : SteamDoc)
  | fetchError (msg : String)
  deriving Repr, DecidableEq

/-- GET /api/inventory/:steamId of part_002, paired with the number of
outbound fetch calls.  The route builds the Steam URL from the raw path
parameter and calls fetchWithRetries(url, empty, 3, 9000) without any
format validation of the id; steamId therefore only parametrizes the URL
and never influences control flow. -/
def quickFetchRoute_part002 (steamId : String) (net : List NetResult) :
    QuickResp × Nat :=
  let t := fetchWithRetries net 3
  (match t.result with
   | Except.error msg => QuickResp.fetchError msg
   | Except.ok (none, raw) => QuickResp.nonJson (raw.take 600)
   | Except.ok (some d, _) => QuickResp.doc d,
   t.attemptsMade)

/-- A concrete run in which all four methods of part_000 throw; the
messages mirror the Bad response errors of its fetchInventory. -/
def c4net : List Attempt :=
  [Attempt.throws "Bad response from direct",
   Attempt.throws "Bad response from allorigins",
   Attempt.throws "Bad response from corsproxy",
   Attempt.throws "Bad response from scmm"]

/-- Concrete document for witnesses: two assets, one matching
description. -/
def docW : SteamDoc :=
  { assets := [⟨"a1", "100", some "5", some 2⟩, ⟨"a2", "200", none, none⟩]
    descriptions :=
      [⟨"100", some "5", some "Eaglefire", some "Eaglefire", some "Gun",
        some "icon1"⟩] }

/-! ## Helper lemmas -/

/-- A put always wins the subsequent get on its own key, whatever the
table held before. -/
theorem getPrice_putPrice (t : PriceTable) (k : String) (p : Int) (ts : Nat) :
    getPrice (putPrice t k p ts) k = some (p, ts) := by
  induction t with
  | nil => simp [getPrice, putPrice]
  | cons r rest ih =>
      by_cases h : r.item_name = k
      · simpa [putPrice, getPrice, h] using ih
      · simpa [putPrice, getPrice, List.find?_cons, h] using ih

/-- When every attempt in a list is a soft failure, the method loop of
part_000 attempts all of them and yields no document. -/
theorem runMethods_all_softfail (net : List Attempt) :
    (∀ a ∈ net, isSoftFail a = true) →
    runMethods net = (none, net.length) := by
  induction net with
  | nil => intro _; rfl
  | cons a rest ih =>
      intro h
      have ha := h a (List.mem_cons_self a rest)
      have hrest := ih (fun x hx => h x (List.mem_cons_of_mem a hx))
      cases a with
      | throws m => simp [runMethods, hrest]
      | parsed d =>
          have hv : validStructure d = false := by
            simpa [isSoftFail] using ha
          simp [runMethods, hv, hrest]

/-- A prefix of soft failures only adds its length to the attempt count of
the method loop. -/
theorem runMethods_softfail_skip (pre l : List Attempt) :
    (∀ a ∈ pre, isSoftFail a = true) →
    runMethods (pre ++ l) =
      ((runMethods l).1, pre.length + (runMethods l).2) := by
  induction pre with
  | nil => intro _; simp
  | cons a rest ih =>
      intro h
      have ha := h a (List.mem_cons_self a rest)
      have hrest := ih (fun x hx => h x (List.mem_cons_of_mem a hx))
      cases a with
      | throws m => simp [runMethods, hrest]; omega
      | parsed d =>
          have hv : validStructure d = false := by
            simpa [isSoftFail] using ha
          simp [runMethods, hv, hrest]; omega

/-! ## Claim theorems -/

/-- C1: when the first N strategies end in soft failure and strategy N+1
yields a structurally valid document, the part_000 route answers exactly
that document and attempts exactly N+1 strategies: the strategies beyond
N+1 (the arbitrary post list) are never attempted and do not influence the
result. -/
theorem firstSuccess_wins (steamId : String) (pre : List Attempt)
    (d : RawDoc) (post : List Attempt) (hid : validSteamId steamId = true)
    (hpre : ∀ a ∈ pre, isSoftFail a = true)
    (hd : validStructure d = true) :
    inventoryRoute_part000 steamId (pre ++ Attempt.parsed d :: post) =
      (InvResp.doc d, pre.length + 1) := by
  have h1 := runMethods_softfail_skip pre (Attempt.parsed d :: post) hpre
  have h2 : runMethods (Attempt.parsed d :: post) = (some d, 1) := by
    simp [runMethods, hd]
  rw [h2] at h1
  simp [inventoryRoute_part000, hid, h1]

/-- Witness for C1: one throwing method, then a valid document, then a
further method that is never reached. -/
theorem firstSuccess_wins_witness :
    inventoryRoute_part000 "76561198000000000"
      [Attempt.throws "Bad response from direct",
       Attempt.parsed ⟨true, true, false, false⟩,
       Attempt.parsed ⟨true, false, true, false⟩] =
      (InvResp.doc ⟨true, true, false, false⟩, 2) := by
  have h := firstSuccess_wins "76561198000000000"
    [Attempt.throws "Bad response from direct"] ⟨true, true, false, false⟩
    [Attempt.parsed ⟨true, false, true, false⟩]
    (by decide) (by decide) (by decide)
  simpa using h

/-- C2 counterexample: the quick-fetch route of part_002 performs no
format validation, so the five-digit id 12345 still leads to an outbound
fetch call (one call here, answered 200) instead of an InvalidInput
rejection with zero calls. -/
theorem invalid_id_still_fetched_part002 :
    validSteamId "12345" = false ∧
    quickFetchRoute_part002 "12345"
      [NetResult.response 200 (some ⟨[], []⟩) "ok"] =
      (QuickResp.doc ⟨[], []⟩, 1) := by
  exact ⟨by decide, rfl⟩

/-- C2 amended: the part_000 route (like the routes of server.js,
part_001, part_003 and the first variant of part_004) rejects every id
failing the 17-digit format with the Invalid SteamID64 error and zero
outbound calls, and the 17-digit id 76561198000000000 passes the format
test; the part_002 routes perform no such validation. -/
theorem invalid_id_rejected_before_fetch (s : String) (net : List Attempt)
    (h : validSteamId s = false) :
    inventoryRoute_part000 s net = (InvResp.invalidSteamId, 0) ∧
    validSteamId "76561198000000000" = true := by
  refine ⟨?_, by decide⟩
  simp [inventoryRoute_part000, h]

/-- Witness for the amended C2 at the id 12345. -/
theorem invalid_id_rejected_before_fetch_witness :
    inventoryRoute_part000 "12345" [] = (InvResp.invalidSteamId, 0) ∧
    validSteamId "76561198000000000" = true :=
  invalid_id_rejected_before_fetch "12345" [] (by decide)

/-- C3 counterexample: with an entry written at time 0 still in the table,
a get at time 600001 (past the claimed 600000 ms threshold) answers the
cached row, not a miss: the route never compares the age against any
threshold. -/
theorem stale_entry_still_hit :
    priceGetRoute 600001 [⟨"Eaglefire", 25, 0⟩] "Eaglefire" =
      PriceResp.hit 25 0 ∧
    priceGetRoute 600001 [⟨"Eaglefire", 25, 0⟩] "Eaglefire" ≠
      PriceResp.miss := by
  exact ⟨rfl, by decide⟩

/-- C3 amended: the price get route enforces no TTL; its answer is
independent of the request time, is the stored row whenever the key is
physically present, and is a miss exactly when the key is absent. -/
theorem priceGet_ignores_age (now1 now2 : Nat) (t : PriceTable)
    (item : String) :
    priceGetRoute now1 t item = priceGetRoute now2 t item ∧
    (∀ p ts, getPrice t item = some (p, ts) →
      priceGetRoute now1 t item = PriceResp.hit p ts) ∧
    (getPrice t item = none → priceGetRoute now1 t item = PriceResp.miss) := by
  refine ⟨rfl, ?_, ?_⟩
  · intro p ts h
    simp [priceGetRoute, h]
  · intro h
    simp [priceGetRoute, h]

/-- Witness for the amended C3: the entry written at time 0 is returned
unchanged both at time 599999 and at time 600001. -/
theorem priceGet_ignores_age_witness :
    priceGetRoute 599999 [⟨"Eaglefire", 25, 0⟩] "Eaglefire" =
      priceGetRoute 600001 [⟨"Eaglefire", 25, 0⟩] "Eaglefire" ∧
    priceGetRoute 599999 [⟨"Eaglefire", 25, 0⟩] "Eaglefire" =
      PriceResp.hit 25 0 := by
  have h := priceGet_ignores_age 599999 600001 [⟨"Eaglefire", 25, 0⟩]
    "Eaglefire"
  exact ⟨h.1, h.2.1 25 0 rfl⟩

/-- C4 counterexample: when all four methods of part_000 throw, the route
answers the single fixed 500 message, and none of the constituent failure
reasons of the attempts occurs anywhere in that caller-visible body. -/
theorem exhaustion_body_lacks_reasons :
    inventoryRoute_part000 "76561198000000000" c4net =
      (InvResp.allFailed allFailedMsg, 4) ∧
    (attemptMsgs c4net).any (fun m => strContains allFailedMsg m) = false := by
  exact ⟨rfl, by decide⟩

/-- C4 amended: whenever every strategy soft-fails, the part_000 route
returns one terminal 500 error carrying the fixed aggregate message (all
strategies were attempted); the individual failure reasons are only
logged, never included in the response body. -/
theorem exhaustion_single_fixed_error (steamId : String)
    (net : List Attempt) (hid : validSteamId steamId = true)
    (hall : ∀ a ∈ net, isSoftFail a = true) :
    inventoryRoute_part000 steamId net =
      (InvResp.allFailed allFailedMsg, net.length) := by
  have h := runMethods_all_softfail net hall
  simp [inventoryRoute_part000, hid, h]

/-- Witness for the amended C4 on the concrete all-throwing run. -/
theorem exhaustion_single_fixed_error_witness :
    inventoryRoute_part000 "76561198000000000" c4net =
      (InvResp.allFailed allFailedMsg, 4) := by
  have h := exhaustion_single_fixed_error "76561198000000000" c4net
    (by decide) (by decide)
  simpa [c4net] using h

/-- C6 evidence: a 403 response is outside the retryable status list, yet
the thrown HTTP error is caught by the catch of the same try block, so
three 403 responses in a row are all attempted, with the backoff delays
500 and 1000 ms slept in between, before the HTTP 403 error surfaces.
The delay 2000 ms is never slept: after the third failure the strategy is
abandoned. -/
theorem nonretryable_status_retried :
    retryableStatuses.contains 403 = false ∧
    fetchWithRetries
      [NetResult.response 403 none "forbidden",
       NetResult.response 403 none "forbidden",
       NetResult.response 403 none "forbidden"] 3 =
      { result := Except.error "HTTP 403", attemptsMade := 3,
        delays := [500, 1000] } := by
  exact ⟨by decide, rfl⟩

/-- C5: the insert loop emits exactly one item per asset, in the input
order of the assets without deduplication (position i of the output is the
join of position i of the input), and an asset whose composite key matches
no description yields an item whose display fields are all absent, never
an error. -/
theorem normalize_one_item_per_asset (invId : Nat) (doc : SteamDoc) :
    (normalize invId doc).length = doc.assets.length ∧
    (∀ i, i < doc.assets.length →
      (normalize invId doc)[i]? =
        (doc.assets[i]?).map
          (fun a => mkItem invId a (descMap doc.descriptions (assetKey a)))) ∧
    (∀ a, descMap doc.descriptions (assetKey a) = none →
      (mkItem invId a none).market_hash_name = none ∧
      (mkItem invId a none).name = none ∧
      (mkItem invId a none).type = none ∧
      (mkItem invId a none).icon_url = none) := by
  refine ⟨by simp [normalize], ?_, ?_⟩
  · intro i hi
    simp [normalize]
  · intro a _
    exact ⟨rfl, rfl, rfl, rfl⟩

/-- Witness for C5 on a two-asset document whose second asset has no
matching description. -/
theorem normalize_one_item_per_asset_witness :
    (normalize 7 docW).length = 2 ∧
    (normalize 7 docW)[1]? = some (mkItem 7 ⟨"a2", "200", none, none⟩ none) ∧
    (mkItem 7 ⟨"a2", "200", none, none⟩ none).market_hash_name = none := by
  have h := normalize_one_item_per_asset 7 docW
  refine ⟨h.1, ?_, (h.2.2 ⟨"a2", "200", none, none⟩ rfl).1⟩
  have h2 := h.2.1 1 (by decide)
  simpa [docW] using h2

/-- C7: a clear-cache request whose bearer token is not exactly the
configured secret leaves the whole database state unchanged, every cache
row included with its value and timestamp, and answers Unauthorized. -/
theorem clearCache_wrong_token_noop (token : Option String) (db : Db)
    (h : token ≠ some SECRET_TOKEN) :
    clearCache token db = (db, ClearResp.unauthorized) := by
  simp [clearCache, h]

/-- Witness for C7 with a wrong token over a populated database. -/
theorem clearCache_wrong_token_noop_witness :
    clearCache (some "wrongkey")
      ⟨[⟨"Eaglefire", 25, 42⟩], [⟨"76561198000000000", 1, ["g"], 9⟩]⟩ =
      (⟨[⟨"Eaglefire", 25, 42⟩], [⟨"76561198000000000", 1, ["g"], 9⟩]⟩,
       ClearResp.unauthorized) :=
  clearCache_wrong_token_noop (some "wrongkey")
    ⟨[⟨"Eaglefire", 25, 42⟩], [⟨"76561198000000000", 1, ["g"], 9⟩]⟩
    (by decide)

/-- C8: two puts on the same key followed by a get return the second value
with the timestamp of the second write, for every prior table state: the
INSERT OR REPLACE upsert replaces rather than duplicates or fails. -/
theorem put_put_get_last_write_wins (t : PriceTable) (k : String)
    (v1 v2 : Int) (ts1 ts2 : Nat) :
    getPrice (putPrice (putPrice t k v1 ts1) k v2 ts2) k =
      some (v2, ts2) :=
  getPrice_putPrice (putPrice t k v1 ts1) k v2 ts2

/-- C9: the save-inventory upsert preserves the table invariant that
item_count equals the length of the stored inventory array, and its
success response reports exactly that count. -/
theorem saveInventory_count_invariant (t : InvTable) (sid : String)
    (inv : List String) (now : Nat) (ht : invCountInvariant t)
    (hsid : sid ≠ "") :
    invCountInvariant (saveInventory t sid inv now).1 ∧
    (saveInventory t sid inv now).2 = SaveResp.success inv.length := by
  unfold saveInventory
  rw [if_neg hsid]
  refine ⟨?_, rfl⟩
  intro r hr
  rcases List.mem_append.mp hr with h | h
  · exact ht r (List.mem_of_mem_filter h)
  · simp only [List.mem_singleton] at h
    subst h
    rfl

/-- Witness for C9: saving a two-item inventory into the empty table. -/
theorem saveInventory_count_invariant_witness :
    invCountInvariant
      (saveInventory [] "76561198000000000" ["gun", "ammo"] 5).1 ∧
    (saveInventory [] "76561198000000000" ["gun", "ammo"] 5).2 =
      SaveResp.success 2 :=
  saveInventory_count_invariant [] "76561198000000000" ["gun", "ammo"] 5
    (by decide) (by decide)

/-- C10: an authorized clear-cache call empties only the market_cache
table; the saved_inventories rows are exactly those present before. -/
theorem clearCache_preserves_saved (db : Db) :
    (clearCache (some SECRET_TOKEN) db).1.saved = db.saved ∧
    (clearCache (some SECRET_TOKEN) db).1.market = [] ∧
    (clearCache (some SECRET_TOKEN) db).2 = ClearResp.cleared := by
  simp [clearCache]

end UnturnedInv
